import Mathlib

/-
Verification of the minio admin control-plane handlers (cmd/admin-handlers.go):
query-parameter validation, lock list/clear, heal orchestration (bucket,
object, format), the two-phase set-config quorum protocol, and credential
rotation.  Handlers are embedded as pure functions over explicit inputs that
stand for the results of the external collaborators (peer RPC fan-out, the
storage engine, the lock manager); every observable side effect (a heal call,
a force-unlock, the storage-engine swap, a peer restart signal) is recorded in
the returned trace so frame properties can be stated.
-/

namespace MinioAdmin

/- Query parameters of a request URL, modelling the Go type url.Values: a
finite association of keys to lists of values.  Modelled as an association
list; the Go map has unique keys but no claim below depends on uniqueness. -/
abbrev QueryVars := List (String × List String)

/- Model of url.Values.Get: the first value stored under the key, or the empty
string when the key is absent or has no values. -/
def QueryVars.get (v : QueryVars) (k : String) : String :=
  match v.find? (fun p => p.1 == k) with
  | some (_, x :: _) => x
  | _ => ""

/- Model of the Go comma-ok map lookup on url.Values: key membership. -/
def QueryVars.hasKey (v : QueryVars) (k : String) : Bool :=
  v.any (fun p => p.1 == k)

/- The admin API error codes used by the handlers in this file (the APIErrorCode
enumeration of the source, restricted to the constructors these handlers
mention).  errOther stands for codes produced by the external toAPIErrorCode
mapping. -/
inductive APIErrorCode where
  | errNone
  | errInvalidBucketName
  | errInvalidObjectName
  | errInvalidDuration
  | errInvalidMaxKeys
  | errServerNotInitialized
  | errNotImplemented
  | errMethodNotAllowed
  | errMalformedXML
  | errInternalError
  | errAdminConfigNoQuorum
  | errOther (msg : String)
deriving DecidableEq, Repr

/- Decimal digit test on a character, by code point (kernel-reducible). -/
def isDigitChar (c : Char) : Bool :=
  decide (48 ≤ c.toNat) && decide (c.toNat ≤ 57)

/- Lowercase ascii letter test on a character, by code point. -/
def isLowerChar (c : Char) : Bool :=
  decide (97 ≤ c.toNat) && decide (c.toNat ≤ 122)

/- Value of a non-empty all-digit character list as a natural number; fails on
the empty list and on any non-digit character. -/
def charsToNat? (cs : List Char) : Option Nat :=
  if cs.isEmpty || !(cs.all isDigitChar) then none
  else some (cs.foldl (fun acc c => acc * 10 + (c.toNat - 48)) 0)

/- Model of the Go stdlib strconv.Atoi (an external collaborator): an optional
sign followed by decimal digits; any other input (including the empty string)
fails.  The int range check of the stdlib is immaterial at the inputs the
admin API claims mention and is not modelled. -/
def atoi (s : String) : Option Int :=
  match s.data with
  | '-' :: rest => (charsToNat? rest).map (fun n => -(n : Int))
  | '+' :: rest => (charsToNat? rest).map (fun n => (n : Int))
  | cs => (charsToNat? cs).map (fun n => (n : Int))

/- Nanoseconds per duration unit suffix, for the model of time.ParseDuration. -/
def durationUnitNanos : List Char → Option Int
  | ['n', 's'] => some 1
  | ['u', 's'] => some 1000
  | ['m', 's'] => some 1000000
  | ['s'] => some 1000000000
  | ['m'] => some 60000000000
  | ['h'] => some 3600000000000
  | _ => none

/- Model of the Go stdlib time.ParseDuration (an external collaborator),
restricted to the forms the admin API relies on: decimal digits followed by
one unit suffix among ns, us, ms, s, m, h.  Every other string fails, as it
does in the stdlib. -/
def parseDuration (s : String) : Option Int :=
  let digits := s.data.takeWhile isDigitChar
  let unit := s.data.dropWhile isDigitChar
  match charsToNat? digits, durationUnitNanos unit with
  | some n, some u => some ((n : Int) * u)
  | _, _ => none

/- Modelled from the spec: IsValidBucketName is repository code that is not
under src/.  The spec requires the bucket name to be syntactically valid and
non-empty, rejecting names violating the S3 naming rules; modelled as 3 to 63
characters, each a lowercase letter, a digit, a dot or a hyphen.  The empty
string is invalid. -/
def IsValidBucketName (bucket : String) : Bool :=
  decide (3 ≤ bucket.data.length) && decide (bucket.data.length ≤ 63)
    && bucket.data.all (fun c => isLowerChar c || isDigitChar c
        || decide (c = '.') || decide (c = '-'))

/- Modelled from the spec: IsValidObjectPrefix is repository code that is not
under src/.  The spec says an empty object name filter is valid (matches all);
modelled as accepting any string of at most 1024 characters. -/
def IsValidObjectPfx (s : String) : Bool :=
  decide (s.data.length ≤ 1024)

/- validateLockQueryParams: validates query params for the list/clear locks
management APIs.  An empty bucket name is invalid; an empty object filter is
valid; an empty duration string defaults to 0s; an unparseable duration yields
errInvalidDuration.  Result: bucket, object filter, duration (nanoseconds),
error code. -/
def validateLockQueryParams (vars : QueryVars) :
    String × String × Int × APIErrorCode :=
  let bucket := vars.get "bucket"
  let pfx := vars.get "prefix"
  let durationStr := vars.get "duration"
  if !(IsValidBucketName bucket) then ("", "", 0, .errInvalidBucketName)
  else if !(IsValidObjectPfx pfx) then ("", "", 0, .errInvalidObjectName)
  else
    let durationStr := if durationStr == "" then "0s" else durationStr
    match parseDuration durationStr with
    | none => ("", "", 0, .errInvalidDuration)
    | some duration => (bucket, pfx, duration, .errNone)

/- Modelled from the spec: validateListObjectsArgs is repository code that is
not under src/.  The spec says the max-key parameter must be a non-negative
integer; the other listing arguments impose no constraint stated by the spec
and are accepted. -/
def validateListObjectsArgs (_pfx _marker _delimiter : String) (maxKey : Int) :
    APIErrorCode :=
  if maxKey < 0 then .errInvalidMaxKeys else .errNone

/- validateHealQueryParams: validates query params for the heal listing
management API.  Result: bucket, object filter, marker, delimiter, max keys,
error code. -/
def validateHealQueryParams (vars : QueryVars) :
    String × String × String × String × Int × APIErrorCode :=
  let bucket := vars.get "bucket"
  let pfx := vars.get "prefix"
  let marker := vars.get "marker"
  let delimiter := vars.get "delimiter"
  let maxKeyStr := vars.get "max-key"
  if !(IsValidBucketName bucket) then ("", "", "", "", 0, .errInvalidBucketName)
  else if !(IsValidObjectPfx pfx) then ("", "", "", "", 0, .errInvalidObjectName)
  else
    match atoi maxKeyStr with
    | none => ("", "", "", "", 0, .errInvalidMaxKeys)
    | some maxKey =>
      let apiErr := validateListObjectsArgs pfx marker delimiter maxKey
      if apiErr ≠ .errNone then ("", "", "", "", 0, apiErr)
      else (bucket, pfx, marker, delimiter, maxKey, .errNone)

/- isDryRun: returns true if the dry-run query param was set and false
otherwise (key presence in url.Values, whatever the value). -/
def isDryRun (qval : QueryVars) : Bool :=
  if qval.hasKey "dry-run" then true else false

/- One entry of the lock information returned by the peer lock listing
(VolumeLockInfo in the source); only the fields the handlers in this file
read are modelled. -/
structure VolumeLockInfo where
  bucket : String
  object : String
deriving DecidableEq, Repr

/- Response of the lock management handlers: either an error code or the list
of lock records serialized to the body.  The JSON encoding itself is external
and not modelled; both lock handlers encode the identical value. -/
inductive LockResp where
  | err (c : APIErrorCode)
  | ok (locks : List VolumeLockInfo)
deriving DecidableEq, Repr

/- Observable outcome of a lock handler: its response, whether the peer lock
listing was invoked, and the sequence of ForceUnlock calls issued to the lock
manager (bucket and object of each released record, in order). -/
structure LockHandlerResult where
  resp : LockResp
  listCalled : Bool
  forceUnlocked : List (String × String)
deriving DecidableEq, Repr

/- ListLocksHandler.  Inputs: the auth check result, the query params, and the
peer lock listing (listPeerLocksInfo, external fan-out) as a function of
bucket, object filter and duration. -/
def ListLocksHandler (authErr : APIErrorCode) (vars : QueryVars)
    (listPeerLocksInfo : String → String → Int → Except String (List VolumeLockInfo)) :
    LockHandlerResult :=
  if authErr ≠ .errNone then ⟨.err authErr, false, []⟩
  else
    match validateLockQueryParams vars with
    | (bucket, pfx, duration, .errNone) =>
      match listPeerLocksInfo bucket pfx duration with
      | .error _ => ⟨.err .errInternalError, true, []⟩
      | .ok volLocks => ⟨.ok volLocks, true, []⟩
    | (_, _, _, e) => ⟨.err e, false, []⟩

/- ClearLocksHandler.  Performs the same validation and the same peer lock
listing as ListLocksHandler, then force-releases every returned record and
replies with the same list. -/
def ClearLocksHandler (authErr : APIErrorCode) (vars : QueryVars)
    (listPeerLocksInfo : String → String → Int → Except String (List VolumeLockInfo)) :
    LockHandlerResult :=
  if authErr ≠ .errNone then ⟨.err authErr, false, []⟩
  else
    match validateLockQueryParams vars with
    | (bucket, pfx, duration, .errNone) =>
      match listPeerLocksInfo bucket pfx duration with
      | .error _ => ⟨.err .errInternalError, true, []⟩
      | .ok volLocks =>
        ⟨.ok volLocks, true, volLocks.map (fun l => (l.bucket, l.object))⟩
    | (_, _, _, e) => ⟨.err e, false, []⟩

/- Observable outcome of the heal listing handler: response carrying the
listed objects (abstract type) or an error, plus whether the storage engine
listing was invoked. -/
inductive HealListResp (α : Type) where
  | err (c : APIErrorCode)
  | ok (objects : α)
deriving DecidableEq, Repr

structure ListHealResult (α : Type) where
  resp : HealListResp α
  engineCalled : Bool
deriving DecidableEq, Repr

/- ListObjectsHealHandler.  Inputs: whether the object layer is initialized,
the auth check result, the query params, the storage engine listing
(ListObjectsHeal) and the external error mapping toAPIErrorCode. -/
def ListObjectsHealHandler {α : Type} (objLayerUp : Bool) (authErr : APIErrorCode)
    (vars : QueryVars)
    (listObjectsHeal : String → String → String → String → Int → Except String α)
    (toAPI : String → APIErrorCode) : ListHealResult α :=
  if !objLayerUp then ⟨.err .errServerNotInitialized, false⟩
  else if authErr ≠ .errNone then ⟨.err authErr, false⟩
  else
    match validateHealQueryParams vars with
    | (bucket, pfx, marker, delimiter, maxKey, .errNone) =>
      match listObjectsHeal bucket pfx marker delimiter maxKey with
      | .error e => ⟨.err (toAPI e), true⟩
      | .ok infos => ⟨.ok infos, true⟩
    | (_, _, _, _, _, e) => ⟨.err e, false⟩

/- Response of a handler that replies with headers only on success. -/
inductive Resp where
  | ok
  | err (c : APIErrorCode)
deriving DecidableEq, Repr

/- Observable outcome of the bucket and object heal handlers: the response and
whether the storage engine heal routine was invoked. -/
structure HealActResult where
  resp : Resp
  healCalled : Bool
deriving DecidableEq, Repr

/- HealBucketHandler.  Inputs: whether the object layer is initialized, the
auth check result, the query params, the external existence check
(checkBucketExist, repository code outside src/, abstracted as its result per
bucket), the storage engine heal routine (HealBucket) and the external error
mapping toAPIErrorCode. -/
def HealBucketHandler (objLayerUp : Bool) (authErr : APIErrorCode)
    (vars : QueryVars)
    (checkBucketExist : String → Option String)
    (healBucket : String → Option String)
    (toAPI : String → APIErrorCode) : HealActResult :=
  if !objLayerUp then ⟨.err .errServerNotInitialized, false⟩
  else if authErr ≠ .errNone then ⟨.err authErr, false⟩
  else
    let bucket := vars.get "bucket"
    match checkBucketExist bucket with
    | some e => ⟨.err (toAPI e), false⟩
    | none =>
      if isDryRun vars then ⟨.ok, false⟩
      else
        match healBucket bucket with
        | some e => ⟨.err (toAPI e), true⟩
        | none => ⟨.ok, true⟩

/- HealObjectHandler.  Inputs as for HealBucketHandler, with the external name
validation (checkBucketAndObjectNames, repository code outside src/), the
storage engine existence check (GetObjectInfo, abstracted as its error result)
and the storage engine heal routine (HealObject). -/
def HealObjectHandler (objLayerUp : Bool) (authErr : APIErrorCode)
    (vars : QueryVars)
    (checkBucketAndObjectNames : String → String → Option String)
    (getObjectInfo : String → String → Option String)
    (healObject : String → String → Option String)
    (toAPI : String → APIErrorCode) : HealActResult :=
  if !objLayerUp then ⟨.err .errServerNotInitialized, false⟩
  else if authErr ≠ .errNone then ⟨.err authErr, false⟩
  else
    let bucket := vars.get "bucket"
    let object := vars.get "object"
    match checkBucketAndObjectNames bucket object with
    | some e => ⟨.err (toAPI e), false⟩
    | none =>
      match getObjectInfo bucket object with
      | some e => ⟨.err (toAPI e), false⟩
      | none =>
        if isDryRun vars then ⟨.ok, false⟩
        else
          match healObject bucket object with
          | some e => ⟨.err (toAPI e), true⟩
          | none => ⟨.ok, true⟩

/- Events of the format heal workflow, in the order the handler performs them.
E is the storage engine instance type, D the type of the set of raw storage
handles. -/
inductive FormatHealEvent (E D : Type) where
  | initDisksCalled
  | healFormatRun (d : D)
  | newEngineBuilt (d : D)
  | swapped (e : E)
  | shutdownCalled (e : E)
  | peersReinit
deriving DecidableEq, Repr

/- Observable outcome of HealFormatHandler: the response, the ordered events
performed, and the final value of the cluster-wide storage engine handle
(globalObjectAPI). -/
structure FormatHealResult (E D : Type) where
  resp : Resp
  events : List (FormatHealEvent E D)
  finalAPI : Option E
deriving DecidableEq, Repr

/- HealFormatHandler.  Inputs: the current globalObjectAPI (none when the
server is not initialized), the auth check result, the erasure mode flag
(globalIsXL), the query params, and the three fallible steps as abstract
results: reinitialization of raw storage handles (initStorageDisks), the
format heal routine (healFormatXL) and construction of a new engine instance
(newXLObjects).  On success the handler swaps globalObjectAPI to the new
instance, then shuts the previous instance down and signals the peers. -/
def HealFormatHandler {E D : Type} (globalObjectAPI : Option E)
    (authErr : APIErrorCode) (globalIsXL : Bool) (vars : QueryVars)
    (initStorageDisks : Except String D)
    (healFormatXL : D → Option String)
    (newXLObjects : D → Except String E)
    (toAPI : String → APIErrorCode) : FormatHealResult E D :=
  match globalObjectAPI with
  | none => ⟨.err .errServerNotInitialized, [], none⟩
  | some objectAPI =>
    if authErr ≠ .errNone then ⟨.err authErr, [], some objectAPI⟩
    else if !globalIsXL then ⟨.err .errNotImplemented, [], some objectAPI⟩
    else if isDryRun vars then ⟨.ok, [], some objectAPI⟩
    else
      match initStorageDisks with
      | .error e => ⟨.err (toAPI e), [.initDisksCalled], some objectAPI⟩
      | .ok bootstrapDisks =>
        match healFormatXL bootstrapDisks with
        | some e =>
          ⟨.err (toAPI e), [.initDisksCalled, .healFormatRun bootstrapDisks],
            some objectAPI⟩
        | none =>
          match newXLObjects bootstrapDisks with
          | .error e =>
            ⟨.err (toAPI e), [.initDisksCalled, .healFormatRun bootstrapDisks],
              some objectAPI⟩
          | .ok newObjectAPI =>
            ⟨.ok,
              [.initDisksCalled, .healFormatRun bootstrapDisks,
                .newEngineBuilt bootstrapDisks, .swapped newObjectAPI,
                .shutdownCalled objectAPI, .peersReinit],
              some newObjectAPI⟩

/- Number of error-free slots of a per-peer error slice. -/
def countNone (errs : List (Option String)) : Nat :=
  (errs.filter (fun e => e.isNone)).length

/- Modelled from the spec: reduceWriteQuorumErrs is repository code that is
not under src/.  Per the spec, the quorum evaluation succeeds (returns no
error) iff at least the required number of the per-peer error slots are
error-free; otherwise a representative error is returned — any one of the
non-nil errors (the first encountered), or the distinct no-quorum error when
none exists. -/
def reduceWriteQuorumErrs (errs : List (Option String)) (required : Nat) :
    Option String :=
  if required ≤ countNone errs then none
  else some ((errs.filterMap id).headD "errXLWriteQuorum")

/- One entry of the per-node result list of a set-config response (nodeSummary
in the source). -/
structure nodeSummary where
  name : String
  errSet : Bool
  errMsg : String
deriving DecidableEq, Repr

/- The set-config response body (setConfigResult in the source). -/
structure setConfigResult where
  nodeResults : List nodeSummary
  status : Bool
deriving DecidableEq, Repr

/- Rendering of a per-peer error as the Go fmt verb %v prints it: the message
of a non-nil error, and the string <nil> for a nil one. -/
def errMsgString : Option String → String
  | none => "<nil>"
  | some s => s

/- writeSetConfigResponse: builds the per-node result list from the peer
addresses and the index-aligned per-peer error slice, together with the overall
status.  The JSON encoding of the result is external and not modelled. -/
def writeSetConfigResponse (peers : List String) (errs : List (Option String))
    (status : Bool) : setConfigResult :=
  { nodeResults :=
      (peers.zip errs).map (fun pe =>
        { name := pe.1, errSet := pe.2.isSome, errMsg := errMsgString pe.2 }),
    status := status }

/- Response of SetConfigHandler: an error reply before the staging phase, or a
set-config result body. -/
inductive SetConfigResp where
  | err (c : APIErrorCode)
  | result (r : setConfigResult)
deriving DecidableEq, Repr

/- Observable outcome of SetConfigHandler: the response, whether the exclusive
config lock was taken, whether the commit phase was attempted
(commitConfigPeers invoked), and whether the cluster restart signal was
sent. -/
structure SetConfigTrace where
  resp : SetConfigResp
  lockTaken : Bool
  commitAttempted : Bool
  restartSent : Bool
deriving DecidableEq, Repr

/- SetConfigHandler.  Inputs: whether the object layer is initialized, the
auth check result, the request body read result, the peer addresses, the
index-aligned per-peer error slices returned by the staging fan-out
(writeTmpConfigPeers) and by the commit fan-out (commitConfigPeers), and the
external error mapping toAPIErrorCode.  Both quorum checks use the threshold
len(peers)/2+1.  When the staging quorum fails the handler replies with the
staging errors and status false before taking the config lock or asking any
peer to promote its staged file; when the commit quorum fails it replies with
the commit errors and status false; on success it replies with status true and
signals a cluster restart. -/
def SetConfigHandler (objLayerUp : Bool) (authErr : APIErrorCode)
    (body : Except String (List UInt8)) (peers : List String)
    (writeTmpConfigPeers : List (Option String))
    (commitConfigPeers : List (Option String))
    (toAPI : String → APIErrorCode) : SetConfigTrace :=
  if !objLayerUp then ⟨.err .errServerNotInitialized, false, false, false⟩
  else if authErr ≠ .errNone then ⟨.err authErr, false, false, false⟩
  else
    match body with
    | .error e => ⟨.err (toAPI e), false, false, false⟩
    | .ok _ =>
      let errs := writeTmpConfigPeers
      match reduceWriteQuorumErrs errs (peers.length / 2 + 1) with
      | some _ =>
        ⟨.result (writeSetConfigResponse peers errs false), false, false, false⟩
      | none =>
        let errs2 := commitConfigPeers
        match reduceWriteQuorumErrs errs2 (peers.length / 2 + 1) with
        | some _ =>
          ⟨.result (writeSetConfigResponse peers errs2 false), true, true, false⟩
        | none =>
          ⟨.result (writeSetConfigResponse peers errs2 true), true, true, true⟩

/- The parsed set-credentials request body (setCredsReq in the source). -/
structure setCredsReq where
  username : String
  password : String
deriving DecidableEq, Repr

/- Observable outcome of ServiceCredentialsHandler: the response and whether
the local in-memory credentials were updated (SetCredential reached). -/
structure CredsResult where
  resp : Resp
  credsSetLocally : Bool
deriving DecidableEq, Repr

/- ServiceCredentialsHandler.  Inputs: the auth check result, whether the
credentials are pinned by the environment (globalIsEnvCreds), the request body
read result, the XML unmarshalling of the body (external), the credential
validation (validateAuthKeys, repository code outside src/, abstracted as its
error result), the index-aligned per-peer error slice of the credential update
fan-out (updateCredsOnPeers), the local config save result, and the external
error mapping.  Per-peer update errors are only logged (errorIf in the
source); no quorum check is applied to them and they do not influence the
response. -/
def ServiceCredentialsHandler (authErr : APIErrorCode) (globalIsEnvCreds : Bool)
    (body : Except String (List UInt8))
    (unmarshal : List UInt8 → Except String setCredsReq)
    (validateAuthKeys : String → String → Option String)
    (updateCredsOnPeers : List (Option String))
    (saveErr : Option String)
    (toAPI : String → APIErrorCode) : CredsResult :=
  if authErr ≠ .errNone then ⟨.err authErr, false⟩
  else if globalIsEnvCreds then ⟨.err .errMethodNotAllowed, false⟩
  else
    match body with
    | .error _ => ⟨.err .errInternalError, false⟩
    | .ok inputData =>
      match unmarshal inputData with
      | .error _ => ⟨.err .errMalformedXML, false⟩
      | .ok req =>
        match validateAuthKeys req.username req.password with
        | some e => ⟨.err (toAPI e), false⟩
        | none =>
          -- updateCredsOnPeers: per-peer errors are only logged and dropped.
          let _ := updateCredsOnPeers
          match saveErr with
          | some _ => ⟨.err .errInternalError, true⟩
          | none => ⟨.ok, true⟩

/-- Claim C10: for every heal request, dry-run mode is determined solely by the
presence of the dry-run query key: it is treated as a dry run whenever the key
appears, whatever its value (including a value of false), and as a real run
iff the key is absent. -/
theorem isDryRun_key_presence (v : QueryVars) :
    (isDryRun v = true ↔ ∃ p ∈ v, p.1 = "dry-run")
    ∧ isDryRun [("dry-run", ["false"])] = true
    ∧ isDryRun [] = false := by
  refine ⟨?_, by decide, by decide⟩
  simp [isDryRun, QueryVars.hasKey, List.any_eq_true]

/-- Claim C6: for every bucket, object-filter and duration filter, the
clear-locks handler performs the identical peer listing as the list-locks
handler with the same filter arguments, returns the same response, and
force-releases exactly the lock records that listing returned. -/
theorem ClearLocksHandler_matches_ListLocksHandler (authErr : APIErrorCode)
    (vars : QueryVars)
    (listPeerLocksInfo : String → String → Int → Except String (List VolumeLockInfo)) :
    (ClearLocksHandler authErr vars listPeerLocksInfo).resp
        = (ListLocksHandler authErr vars listPeerLocksInfo).resp
    ∧ (ClearLocksHandler authErr vars listPeerLocksInfo).listCalled
        = (ListLocksHandler authErr vars listPeerLocksInfo).listCalled
    ∧ (ClearLocksHandler authErr vars listPeerLocksInfo).forceUnlocked
        = (match (ListLocksHandler authErr vars listPeerLocksInfo).resp with
            | .ok locks => locks.map (fun l => (l.bucket, l.object))
            | .err _ => []) := by
  unfold ClearLocksHandler ListLocksHandler
  by_cases h : authErr = .errNone
  · subst h
    rcases hv : validateLockQueryParams vars with ⟨b, p, d, e⟩
    cases e
    · cases hl : listPeerLocksInfo b p d <;> simp [hv, hl]
    all_goals simp [hv]
  · simp [h]

/-- Claim C5: for every object-heal request, the object-existence check
(GetObjectInfo) runs before any heal: if the lookup fails, the handler
responds with that error and the storage engine HealObject is never called. -/
theorem HealObjectHandler_lookup_failure_no_heal (vars : QueryVars)
    (checkNames : String → String → Option String)
    (getObjectInfo healObject : String → String → Option String)
    (toAPI : String → APIErrorCode) (e : String)
    (hn : checkNames (vars.get "bucket") (vars.get "object") = none)
    (hg : getObjectInfo (vars.get "bucket") (vars.get "object") = some e) :
    HealObjectHandler true .errNone vars checkNames getObjectInfo healObject toAPI
      = ⟨.err (toAPI e), false⟩ := by
  unfold HealObjectHandler
  simp [hn, hg]

theorem HealObjectHandler_lookup_failure_no_heal_witness :
    HealObjectHandler true .errNone [("bucket", ["mybucket"]), ("object", ["myobject"])]
      (fun _ _ => none) (fun _ _ => some "object not found") (fun _ _ => none)
      (fun _ => .errOther "object not found")
      = ⟨.err (.errOther "object not found"), false⟩ :=
  HealObjectHandler_lookup_failure_no_heal _ _ _ _ _ "object not found" rfl rfl

/-- Claim C9: for every set-credentials request with valid,
non-environment-pinned credentials, the handler reports success whenever the
local config save succeeds, regardless of how many peer credential updates
failed: per-peer update errors are only logged and no quorum check is applied
to the credential-update fan-out. -/
theorem ServiceCredentialsHandler_no_peer_quorum
    (body : Except String (List UInt8))
    (unmarshal : List UInt8 → Except String setCredsReq)
    (validateAuthKeys : String → String → Option String)
    (updateErrs : List (Option String)) (toAPI : String → APIErrorCode)
    (inputData : List UInt8) (req : setCredsReq)
    (hbody : body = .ok inputData)
    (hun : unmarshal inputData = .ok req)
    (hval : validateAuthKeys req.username req.password = none) :
    ServiceCredentialsHandler .errNone false body unmarshal validateAuthKeys
      updateErrs none toAPI = ⟨.ok, true⟩ := by
  subst hbody
  unfold ServiceCredentialsHandler
  simp [hun, hval]

theorem ServiceCredentialsHandler_no_peer_quorum_witness :
    ServiceCredentialsHandler .errNone false (.ok [])
      (fun _ => .ok ⟨"newuser", "newpassword"⟩) (fun _ _ => none)
      [some "peer 1 down", some "peer 2 down", some "peer 3 down"]
      none (fun _ => .errInternalError) = ⟨.ok, true⟩ :=
  ServiceCredentialsHandler_no_peer_quorum _ _ _ _ _ [] ⟨"newuser", "newpassword"⟩
    rfl rfl rfl

/-- Claim C8: for every list-objects-heal request, a max-key query value that
does not parse as an integer (for example abc) makes the handler return the
invalid-max-keys validation error without contacting the storage engine. -/
theorem ListObjectsHealHandler_invalid_max_key {α : Type} (vars : QueryVars)
    (listObjectsHeal : String → String → String → String → Int → Except String α)
    (toAPI : String → APIErrorCode)
    (hb : IsValidBucketName (vars.get "bucket") = true)
    (hp : IsValidObjectPfx (vars.get "prefix") = true)
    (hmk : atoi (vars.get "max-key") = none) :
    validateHealQueryParams vars = ("", "", "", "", 0, .errInvalidMaxKeys)
    ∧ ListObjectsHealHandler true .errNone vars listObjectsHeal toAPI
        = ⟨.err .errInvalidMaxKeys, false⟩
    ∧ atoi "abc" = none := by
  have hv : validateHealQueryParams vars = ("", "", "", "", 0, .errInvalidMaxKeys) := by
    unfold validateHealQueryParams
    simp [hb, hp, hmk]
  refine ⟨hv, ?_, by decide⟩
  unfold ListObjectsHealHandler
  simp [hv]

theorem ListObjectsHealHandler_invalid_max_key_witness :
    validateHealQueryParams [("bucket", ["mybucket"]), ("max-key", ["abc"])]
        = ("", "", "", "", 0, .errInvalidMaxKeys)
    ∧ ListObjectsHealHandler true .errNone
        [("bucket", ["mybucket"]), ("max-key", ["abc"])]
        (fun _ _ _ _ _ => Except.ok ([] : List String)) (fun _ => .errInternalError)
        = ⟨.err .errInvalidMaxKeys, false⟩
    ∧ atoi "abc" = none :=
  ListObjectsHealHandler_invalid_max_key _ _ _ (by decide) (by decide) (by decide)

/-- Claim C7: for list-locks, clear-locks and list-objects-heal, an invalid
bucket name (including the empty string) is rejected with the bucket-name
validation error before any peer or the storage engine is contacted; an empty
object filter is accepted as valid; and for the lock endpoints an unspecified
duration defaults to 0s (matching all locks) while an unparseable duration
yields the invalid-duration error. -/
theorem lock_heal_filter_validation {α : Type}
    (vars vars2 vars3 : QueryVars) (d : String)
    (f : String → String → Int → Except String (List VolumeLockInfo))
    (g : String → String → String → String → Int → Except String α)
    (toAPI : String → APIErrorCode)
    (hbad : IsValidBucketName (vars.get "bucket") = false)
    (hb2 : IsValidBucketName (vars2.get "bucket") = true)
    (hp2 : vars2.get "prefix" = "")
    (hd2 : vars2.get "duration" = "")
    (hb3 : IsValidBucketName (vars3.get "bucket") = true)
    (hp3 : IsValidObjectPfx (vars3.get "prefix") = true)
    (hd3 : vars3.get "duration" = d)
    (hdne : d ≠ "")
    (hdbad : parseDuration d = none) :
    validateLockQueryParams vars = ("", "", 0, .errInvalidBucketName)
    ∧ validateHealQueryParams vars = ("", "", "", "", 0, .errInvalidBucketName)
    ∧ ListLocksHandler .errNone vars f = ⟨.err .errInvalidBucketName, false, []⟩
    ∧ ClearLocksHandler .errNone vars f = ⟨.err .errInvalidBucketName, false, []⟩
    ∧ ListObjectsHealHandler true .errNone vars g toAPI
        = ⟨.err .errInvalidBucketName, false⟩
    ∧ IsValidBucketName "" = false
    ∧ IsValidObjectPfx "" = true
    ∧ validateLockQueryParams vars2 = (vars2.get "bucket", "", 0, .errNone)
    ∧ validateLockQueryParams vars3 = ("", "", 0, .errInvalidDuration) := by
  have hvl : validateLockQueryParams vars = ("", "", 0, .errInvalidBucketName) := by
    unfold validateLockQueryParams
    simp [hbad]
  have hvh : validateHealQueryParams vars
      = ("", "", "", "", 0, .errInvalidBucketName) := by
    unfold validateHealQueryParams
    simp [hbad]
  refine ⟨hvl, hvh, ?_, ?_, ?_, by decide, by decide, ?_, ?_⟩
  · unfold ListLocksHandler
    simp [hvl]
  · unfold ClearLocksHandler
    simp [hvl]
  · unfold ListObjectsHealHandler
    simp [hvh]
  · have h0 : parseDuration "0s" = some 0 := by decide
    unfold validateLockQueryParams
    simp [hb2, hp2, hd2, h0, IsValidObjectPfx]
  · unfold validateLockQueryParams
    simp [hb3, hp3, hd3, hdne, hdbad]

theorem lock_heal_filter_validation_witness :
    validateLockQueryParams [] = ("", "", 0, .errInvalidBucketName)
    ∧ validateHealQueryParams [] = ("", "", "", "", 0, .errInvalidBucketName)
    ∧ ListLocksHandler .errNone [] (fun _ _ _ => .ok [])
        = ⟨.err .errInvalidBucketName, false, []⟩
    ∧ ClearLocksHandler .errNone [] (fun _ _ _ => .ok [])
        = ⟨.err .errInvalidBucketName, false, []⟩
    ∧ ListObjectsHealHandler true .errNone []
        (fun _ _ _ _ _ => Except.ok ([] : List String)) (fun _ => .errInternalError)
        = ⟨.err .errInvalidBucketName, false⟩
    ∧ IsValidBucketName "" = false
    ∧ IsValidObjectPfx "" = true
    ∧ validateLockQueryParams [("bucket", ["mybucket"])]
        = (QueryVars.get [("bucket", ["mybucket"])] "bucket", "", 0, .errNone)
    ∧ validateLockQueryParams [("bucket", ["mybucket"]), ("duration", ["xyz"])]
        = ("", "", 0, .errInvalidDuration) :=
  lock_heal_filter_validation [] [("bucket", ["mybucket"])]
    [("bucket", ["mybucket"]), ("duration", ["xyz"])] "xyz"
    (fun _ _ _ => .ok []) (fun _ _ _ _ _ => Except.ok ([] : List String))
    (fun _ => .errInternalError)
    (by decide) (by decide) (by decide) (by decide) (by decide) (by decide)
    (by decide) (by decide) (by decide)

/- The per-peer error slice projected out of a zip with the peer list, when the
slice is no longer than the peer list. -/
lemma map_snd_zip_eq (peers : List String) (errs : List (Option String))
    (h : errs.length ≤ peers.length) :
    (peers.zip errs).map Prod.snd = errs := by
  induction errs generalizing peers with
  | nil => cases peers <;> simp
  | cons e rest ih =>
    cases peers with
    | nil => simp at h
    | cons p ps =>
      simp only [List.zip_cons_cons, List.map_cons]
      simp only [List.length_cons, Nat.add_le_add_iff_right] at h
      simp [ih ps h]

/-- Claim C1: for the set-config operation over N peers, both the staging
quorum check and the commit quorum check use the threshold floor(N/2)+1: the
commit phase is attempted iff at least floor(N/2)+1 of the N per-peer staging
error slots are error-free, and the operation succeeds overall (status true,
restart signalled) iff additionally at least floor(N/2)+1 of the N per-peer
commit error slots are error-free. -/
theorem SetConfigHandler_majority_quorum (peers : List String) (b : List UInt8)
    (stagingErrs commitErrs : List (Option String)) (toAPI : String → APIErrorCode)
    (hs : stagingErrs.length = peers.length)
    (hc : commitErrs.length = peers.length) :
    ((SetConfigHandler true .errNone (.ok b) peers stagingErrs commitErrs
        toAPI).commitAttempted = true
      ↔ peers.length / 2 + 1 ≤ countNone stagingErrs)
    ∧ ((SetConfigHandler true .errNone (.ok b) peers stagingErrs commitErrs
        toAPI).restartSent = true
      ↔ (peers.length / 2 + 1 ≤ countNone stagingErrs
          ∧ peers.length / 2 + 1 ≤ countNone commitErrs)) := by
  unfold SetConfigHandler
  by_cases h1 : peers.length / 2 + 1 ≤ countNone stagingErrs
  · by_cases h2 : peers.length / 2 + 1 ≤ countNone commitErrs
    · simp [reduceWriteQuorumErrs, h1, h2]
    · simp [reduceWriteQuorumErrs, h1, h2]
  · simp [reduceWriteQuorumErrs, h1]

theorem SetConfigHandler_majority_quorum_witness :
    ((SetConfigHandler true .errNone (.ok []) ["p1", "p2", "p3", "p4", "p5"]
        [none, none, none, some "e4", some "e5"] [none, none, none, none, none]
        (fun _ => .errInternalError)).restartSent = true)
    ∧ ((SetConfigHandler true .errNone (.ok []) ["p1", "p2", "p3", "p4", "p5"]
        [none, none, some "e3", some "e4", some "e5"] [none, none, none, none, none]
        (fun _ => .errInternalError)).commitAttempted = false) := by
  constructor
  · exact (SetConfigHandler_majority_quorum ["p1", "p2", "p3", "p4", "p5"] []
      [none, none, none, some "e4", some "e5"] [none, none, none, none, none]
      (fun _ => .errInternalError) (by decide) (by decide)).2.mpr (by decide)
  · have h := (SetConfigHandler_majority_quorum ["p1", "p2", "p3", "p4", "p5"] []
      [none, none, some "e3", some "e4", some "e5"] [none, none, none, none, none]
      (fun _ => .errInternalError) (by decide) (by decide)).1
    rw [Bool.eq_false_iff]
    intro hne
    exact absurd (h.mp hne) (by decide)

/-- Claim C2: for every set-config request over N peers, if the staging quorum
check fails, no commit phase is attempted (no peer is asked to promote its
staged file and the config lock is never taken), and the response body is the
per-node result list with exactly N entries whose errSet flag is true exactly
for the peers whose staging write returned a non-nil error, with overall
status false. -/
theorem SetConfigHandler_staging_failure_no_commit (peers : List String)
    (b : List UInt8) (stagingErrs commitErrs : List (Option String))
    (toAPI : String → APIErrorCode)
    (hlen : stagingErrs.length = peers.length)
    (hq : countNone stagingErrs < peers.length / 2 + 1) :
    (SetConfigHandler true .errNone (.ok b) peers stagingErrs commitErrs
        toAPI).commitAttempted = false
    ∧ (SetConfigHandler true .errNone (.ok b) peers stagingErrs commitErrs
        toAPI).lockTaken = false
    ∧ (SetConfigHandler true .errNone (.ok b) peers stagingErrs commitErrs
        toAPI).resp = .result (writeSetConfigResponse peers stagingErrs false)
    ∧ (writeSetConfigResponse peers stagingErrs false).status = false
    ∧ (writeSetConfigResponse peers stagingErrs false).nodeResults.length
        = peers.length
    ∧ (writeSetConfigResponse peers stagingErrs false).nodeResults.map
        (fun ns => ns.errSet) = stagingErrs.map Option.isSome := by
  have hred : reduceWriteQuorumErrs stagingErrs (peers.length / 2 + 1)
      = some ((stagingErrs.filterMap id).headD "errXLWriteQuorum") := by
    unfold reduceWriteQuorumErrs
    simp [Nat.not_le.mpr hq]
  refine ⟨?_, ?_, ?_, rfl, ?_, ?_⟩
  · unfold SetConfigHandler
    simp [hred]
  · unfold SetConfigHandler
    simp [hred]
  · unfold SetConfigHandler
    simp [hred]
  · unfold writeSetConfigResponse
    simp [List.length_zip, hlen]
  · unfold writeSetConfigResponse
    have : ((peers.zip stagingErrs).map (fun pe =>
        ({ name := pe.1, errSet := pe.2.isSome,
           errMsg := errMsgString pe.2 } : nodeSummary))).map (fun ns => ns.errSet)
        = (peers.zip stagingErrs).map (fun pe => pe.2.isSome) := by
      simp [List.map_map]
    simp only [this]
    have h2 : (peers.zip stagingErrs).map (fun pe => pe.2.isSome)
        = ((peers.zip stagingErrs).map Prod.snd).map Option.isSome := by
      simp [List.map_map]
    rw [h2, map_snd_zip_eq peers stagingErrs (le_of_eq hlen)]

theorem SetConfigHandler_staging_failure_no_commit_witness :
    (SetConfigHandler true .errNone (.ok []) ["p1", "p2", "p3", "p4", "p5"]
        [some "e1", some "e2", some "e3", none, none] [none, none, none, none, none]
        (fun _ => .errInternalError)).commitAttempted = false
    ∧ (SetConfigHandler true .errNone (.ok []) ["p1", "p2", "p3", "p4", "p5"]
        [some "e1", some "e2", some "e3", none, none] [none, none, none, none, none]
        (fun _ => .errInternalError)).lockTaken = false
    ∧ (SetConfigHandler true .errNone (.ok []) ["p1", "p2", "p3", "p4", "p5"]
        [some "e1", some "e2", some "e3", none, none] [none, none, none, none, none]
        (fun _ => .errInternalError)).resp
        = .result (writeSetConfigResponse ["p1", "p2", "p3", "p4", "p5"]
            [some "e1", some "e2", some "e3", none, none] false)
    ∧ (writeSetConfigResponse ["p1", "p2", "p3", "p4", "p5"]
        [some "e1", some "e2", some "e3", none, none] false).status = false
    ∧ (writeSetConfigResponse ["p1", "p2", "p3", "p4", "p5"]
        [some "e1", some "e2", some "e3", none, none] false).nodeResults.length
        = (["p1", "p2", "p3", "p4", "p5"] : List String).length
    ∧ (writeSetConfigResponse ["p1", "p2", "p3", "p4", "p5"]
        [some "e1", some "e2", some "e3", none, none] false).nodeResults.map
        (fun ns => ns.errSet)
        = ([some "e1", some "e2", some "e3", none, none] : List (Option String)).map
            Option.isSome :=
  SetConfigHandler_staging_failure_no_commit ["p1", "p2", "p3", "p4", "p5"] []
    [some "e1", some "e2", some "e3", none, none] [none, none, none, none, none]
    (fun _ => .errInternalError) (by decide) (by decide)

/- Dry-run frame property of the bucket heal handler: under the dry-run flag
the engine heal is never called, and the validation outcome agrees with the
non-dry-run variant run with the same bucket. -/
lemma HealBucketHandler_dryRun_frame (u : Bool) (a : APIErrorCode)
    (v v' : QueryVars) (cbe hb : String → Option String)
    (t : String → APIErrorCode)
    (hdry : isDryRun v = true) (hnot : isDryRun v' = false)
    (hbk : v'.get "bucket" = v.get "bucket") :
    (HealBucketHandler u a v cbe hb t).healCalled = false
    ∧ ((HealBucketHandler u a v cbe hb t).resp = .ok →
        (HealBucketHandler u a v' cbe hb t).healCalled = true)
    ∧ ((HealBucketHandler u a v cbe hb t).resp ≠ .ok →
        HealBucketHandler u a v' cbe hb t = HealBucketHandler u a v cbe hb t) := by
  unfold HealBucketHandler
  rw [hbk]
  cases u
  · simp
  · by_cases ha : a = .errNone
    · subst ha
      cases hcbe : cbe (v.get "bucket") with
      | some e => simp [hcbe]
      | none =>
        cases hhb : hb (v.get "bucket") <;> simp [hcbe, hdry, hnot, hhb]
    · simp [ha]

/- Dry-run frame property of the object heal handler, as for the bucket
handler but with the name validation and existence check in front. -/
lemma HealObjectHandler_dryRun_frame (u : Bool) (a : APIErrorCode)
    (v v' : QueryVars) (cbn goi hobj : String → String → Option String)
    (t : String → APIErrorCode)
    (hdry : isDryRun v = true) (hnot : isDryRun v' = false)
    (hbk : v'.get "bucket" = v.get "bucket")
    (hob : v'.get "object" = v.get "object") :
    (HealObjectHandler u a v cbn goi hobj t).healCalled = false
    ∧ ((HealObjectHandler u a v cbn goi hobj t).resp = .ok →
        (HealObjectHandler u a v' cbn goi hobj t).healCalled = true)
    ∧ ((HealObjectHandler u a v cbn goi hobj t).resp ≠ .ok →
        HealObjectHandler u a v' cbn goi hobj t
          = HealObjectHandler u a v cbn goi hobj t) := by
  unfold HealObjectHandler
  rw [hbk, hob]
  cases u
  · simp
  · by_cases ha : a = .errNone
    · subst ha
      cases hcbn : cbn (v.get "bucket") (v.get "object") with
      | some e => simp [hcbn]
      | none =>
        cases hgoi : goi (v.get "bucket") (v.get "object") with
        | some e => simp [hcbn, hgoi]
        | none =>
          cases hho : hobj (v.get "bucket") (v.get "object") <;>
            simp [hcbn, hgoi, hdry, hnot, hho]
    · simp [ha]

/- Dry-run frame property of the format heal handler: under the dry-run flag
no storage handles are reinitialized, no format heal runs, the engine handle
is not swapped, and the validation outcome agrees with the non-dry-run
variant. -/
lemma HealFormatHandler_dryRun_frame {E D : Type} (gAPI : Option E)
    (a : APIErrorCode) (isXL : Bool) (v v' : QueryVars)
    (initD : Except String D) (healF : D → Option String)
    (newX : D → Except String E) (t : String → APIErrorCode)
    (hdry : isDryRun v = true) (hnot : isDryRun v' = false) :
    (HealFormatHandler gAPI a isXL v initD healF newX t).events = []
    ∧ (HealFormatHandler gAPI a isXL v initD healF newX t).finalAPI = gAPI
    ∧ ((HealFormatHandler gAPI a isXL v initD healF newX t).resp = .ok →
        FormatHealEvent.initDisksCalled
          ∈ (HealFormatHandler gAPI a isXL v' initD healF newX t).events)
    ∧ ((HealFormatHandler gAPI a isXL v initD healF newX t).resp ≠ .ok →
        HealFormatHandler gAPI a isXL v' initD healF newX t
          = HealFormatHandler gAPI a isXL v initD healF newX t) := by
  unfold HealFormatHandler
  cases gAPI with
  | none => simp
  | some objectAPI =>
    by_cases ha : a = .errNone
    · subst ha
      cases hxl : isXL
      · simp
      · cases hinit : initD with
        | error e => simp [hdry, hnot, hinit]
        | ok dsk =>
          cases hhf : healF dsk with
          | some e => simp [hdry, hnot, hinit, hhf]
          | none =>
            cases hnx : newX dsk <;> simp [hdry, hnot, hinit, hhf, hnx]
    · simp [ha]

/-- Claim C4: for every heal request (bucket, object or format) carrying the
dry-run flag, the handler performs all validations and returns without
mutating any state: HealBucket and HealObject are never invoked, and for
format heal no storage handles are reinitialized, no format heal runs, and the
storage-engine handle is not swapped; the validation outcome is the same as
the non-dry-run variant run with the same parameters (identical response on a
validation error, and the non-dry-run variant reaches the mutation exactly
when the dry run reported success). -/
theorem dryRun_heal_side_effect_free {E D : Type} (u : Bool) (a : APIErrorCode)
    (v v' : QueryVars) (cbe hb : String → Option String)
    (cbn goi hobj : String → String → Option String)
    (gAPI : Option E) (isXL : Bool) (initD : Except String D)
    (healF : D → Option String) (newX : D → Except String E)
    (t : String → APIErrorCode)
    (hdry : isDryRun v = true) (hnot : isDryRun v' = false)
    (hbk : v'.get "bucket" = v.get "bucket")
    (hob : v'.get "object" = v.get "object") :
    ((HealBucketHandler u a v cbe hb t).healCalled = false
      ∧ ((HealBucketHandler u a v cbe hb t).resp = .ok →
          (HealBucketHandler u a v' cbe hb t).healCalled = true)
      ∧ ((HealBucketHandler u a v cbe hb t).resp ≠ .ok →
          HealBucketHandler u a v' cbe hb t = HealBucketHandler u a v cbe hb t))
    ∧ ((HealObjectHandler u a v cbn goi hobj t).healCalled = false
      ∧ ((HealObjectHandler u a v cbn goi hobj t).resp = .ok →
          (HealObjectHandler u a v' cbn goi hobj t).healCalled = true)
      ∧ ((HealObjectHandler u a v cbn goi hobj t).resp ≠ .ok →
          HealObjectHandler u a v' cbn goi hobj t
            = HealObjectHandler u a v cbn goi hobj t))
    ∧ ((HealFormatHandler gAPI a isXL v initD healF newX t).events = []
      ∧ (HealFormatHandler gAPI a isXL v initD healF newX t).finalAPI = gAPI
      ∧ ((HealFormatHandler gAPI a isXL v initD healF newX t).resp = .ok →
          FormatHealEvent.initDisksCalled
            ∈ (HealFormatHandler gAPI a isXL v' initD healF newX t).events)
      ∧ ((HealFormatHandler gAPI a isXL v initD healF newX t).resp ≠ .ok →
          HealFormatHandler gAPI a isXL v' initD healF newX t
            = HealFormatHandler gAPI a isXL v initD healF newX t)) :=
  ⟨HealBucketHandler_dryRun_frame u a v v' cbe hb t hdry hnot hbk,
   HealObjectHandler_dryRun_frame u a v v' cbn goi hobj t hdry hnot hbk hob,
   HealFormatHandler_dryRun_frame gAPI a isXL v v' initD healF newX t hdry hnot⟩

theorem dryRun_heal_side_effect_free_witness :
    (HealBucketHandler true .errNone
        [("bucket", ["mybucket"]), ("object", ["myobject"]), ("dry-run", ["false"])]
        (fun _ => none) (fun _ => none) (fun _ => .errInternalError)).healCalled = false
    ∧ (HealObjectHandler true .errNone
        [("bucket", ["mybucket"]), ("object", ["myobject"]), ("dry-run", ["false"])]
        (fun _ _ => none) (fun _ _ => none) (fun _ _ => none)
        (fun _ => .errInternalError)).healCalled = false
    ∧ (HealFormatHandler (E := Nat) (D := Nat) (some 7) .errNone true
        [("bucket", ["mybucket"]), ("object", ["myobject"]), ("dry-run", ["false"])]
        (.ok 1) (fun _ => none) (fun d => .ok d)
        (fun _ => .errInternalError)).events = []
    ∧ (HealFormatHandler (E := Nat) (D := Nat) (some 7) .errNone true
        [("bucket", ["mybucket"]), ("object", ["myobject"]), ("dry-run", ["false"])]
        (.ok 1) (fun _ => none) (fun d => .ok d)
        (fun _ => .errInternalError)).finalAPI = some 7 := by
  have h := dryRun_heal_side_effect_free (E := Nat) (D := Nat) true .errNone
    [("bucket", ["mybucket"]), ("object", ["myobject"]), ("dry-run", ["false"])]
    [("bucket", ["mybucket"]), ("object", ["myobject"])]
    (fun _ => none) (fun _ => none) (fun _ _ => none) (fun _ _ => none)
    (fun _ _ => none) (some 7) true (.ok 1) (fun _ => none) (fun d => .ok d)
    (fun _ => .errInternalError) (by decide) (by decide) (by decide) (by decide)
  exact ⟨h.1.1, h.2.1.1, h.2.2.1, h.2.2.2.1⟩

/-- Claim C3: for every format-heal request (non-dry-run, erasure mode), if
any step before the swap fails — storage-handle reinitialization, the format
heal routine, or construction of the new engine instance — the handler
returns an error without modifying the current storage-engine handle and
without shutting down the previous engine instance; the old engine is shut
down only after the swap has occurred. -/
theorem HealFormatHandler_aborts_before_swap {E D : Type}
    (globalObjectAPI : Option E) (authErr : APIErrorCode) (globalIsXL : Bool)
    (vars : QueryVars) (initD : Except String D) (healF : D → Option String)
    (newX : D → Except String E) (toAPI : String → APIErrorCode)
    (r : FormatHealResult E D)
    (hr : r = HealFormatHandler globalObjectAPI authErr globalIsXL vars initD
        healF newX toAPI) :
    (r.resp ≠ .ok → r.finalAPI = globalObjectAPI
      ∧ ∀ e, FormatHealEvent.shutdownCalled e ∉ r.events)
    ∧ (∀ e, FormatHealEvent.shutdownCalled e ∈ r.events →
        ∃ old dsk newE, globalObjectAPI = some old ∧ e = old
          ∧ r.events = [FormatHealEvent.initDisksCalled,
              FormatHealEvent.healFormatRun dsk,
              FormatHealEvent.newEngineBuilt dsk,
              FormatHealEvent.swapped newE,
              FormatHealEvent.shutdownCalled old,
              FormatHealEvent.peersReinit]
          ∧ r.finalAPI = some newE ∧ r.resp = Resp.ok) := by
  subst hr
  unfold HealFormatHandler
  cases globalObjectAPI with
  | none => simp
  | some objectAPI =>
    by_cases ha : authErr = .errNone
    · subst ha
      cases hxl : globalIsXL
      · simp
      · cases hdr : isDryRun vars
        · cases hinit : initD with
          | error e => simp
          | ok dsk =>
            cases hhf : healF dsk with
            | some e => simp [hhf]
            | none =>
              cases hnx : newX dsk with
              | error e => simp [hhf, hnx]
              | ok newE =>
                constructor
                · intro hcon
                  simp [hhf, hnx] at hcon
                · intro e he
                  simp only [hhf, hnx] at he ⊢
                  simp at he
                  exact ⟨objectAPI, dsk, newE, rfl, he, by simp [hhf, hnx],
                    by simp [hhf, hnx], by simp [hhf, hnx]⟩
        · simp
    · simp [ha]

theorem HealFormatHandler_aborts_before_swap_witness :
    (HealFormatHandler (E := Nat) (D := Nat) (some 7) .errNone true []
        (.error "disks down") (fun _ => none) (fun d => .ok d)
        (fun _ => .errInternalError)).finalAPI = some 7
    ∧ FormatHealEvent.shutdownCalled 7
        ∉ (HealFormatHandler (E := Nat) (D := Nat) (some 7) .errNone true []
            (.error "disks down") (fun _ => none) (fun d => .ok d)
            (fun _ => .errInternalError)).events := by
  have h := HealFormatHandler_aborts_before_swap (E := Nat) (D := Nat) (some 7)
    .errNone true [] (.error "disks down") (fun _ => none) (fun d => .ok d)
    (fun _ => .errInternalError) _ rfl
  exact ⟨(h.1 (by decide)).1, (h.1 (by decide)).2 7⟩

end MinioAdmin
